import Mathlib

/-!
Verification of the receipt layout engine of NetumScan80-PersonalPrinter.

Shallow embedding of `src/core/receipt.py` (text layout engine) and
`src/core/html_receipt.py` (styled/HTML rendering path).  Python strings are
modelled as `List Char`; Python ints as `Int`; the fallible constructor
(`Receipt.__init__`, which raises `ValueError` on a bad priority) as an
`Except`-returning function.  `datetime.now().strftime(...)` is modelled as a
timestamp parameter captured at construction time, matching the spec's
`buildLines(title, description, priority, timestamp)` contract.

`textwrap.wrap(text, width)` (all options at their defaults) is embedded by
transcribing the CPython algorithm: whitespace munging (`expandtabs` with tab
size 8, then translating `"\t\n\x0b\x0c\r "` to spaces), splitting the munged
text into alternating word / whitespace chunks on the `textwrap` whitespace
class `"\t\n\x0b\x0c\r "`, then the greedy line-filling loop `_wrap_chunks`
with `drop_whitespace` handling and `_handle_long_word` (including its
break-after-last-hyphen rule for an over-long chunk).  The one simplification:
the word-separation regex's splitting of hyphenated words into separate chunks
is not modelled — words are split at whitespace boundaries only, exactly as the
spec describes the algorithm ("whitespace-boundary wrapping ... greedy
line-fill, first-fit"; a long unbroken token may be hard-broken).
-/

namespace NetumScan

/-- Python's Unicode whitespace set, as used by `str.strip` / `str.rstrip`
(`Py_UNICODE_ISSPACE`). -/
def pyIsSpace (c : Char) : Bool :=
  let n := c.toNat
  n = 0x20 || (0x9 ≤ n && n ≤ 0xd) || (0x1c ≤ n && n ≤ 0x1f) || n = 0x85 ||
  n = 0xa0 || n = 0x1680 || (0x2000 ≤ n && n ≤ 0x200a) || n = 0x2028 ||
  n = 0x2029 || n = 0x202f || n = 0x205f || n = 0x3000

/-- The `textwrap` module's own whitespace class `_whitespace =
"\t\n\x0b\x0c\r "`, used both by its whitespace-translation table and by its
word-separation regex. -/
def sepIsSpace (c : Char) : Bool :=
  let n := c.toNat
  n = 0x20 || (0x9 ≤ n && n ≤ 0xd)

/-- Python `str.rstrip()`: drop trailing Unicode whitespace. -/
def pyRstrip (s : List Char) : List Char :=
  (s.reverse.dropWhile pyIsSpace).reverse

/-- The 102 code points whose Python `str.upper()` image is longer than one
character (Unicode full special casing, e.g. `'\u00df' -> "SS"`); every other
code point upper-cases to exactly one character, so this table is exactly
the set of length-changing mappings of `str.upper()`. -/
def pyUpperSpecial (n : Nat) : Option (List Char) :=
  match n with
  | 0x00df => some ['\u0053', '\u0053']
  | 0x0149 => some ['\u02bc', '\u004e']
  | 0x01f0 => some ['\u004a', '\u030c']
  | 0x0390 => some ['\u0399', '\u0308', '\u0301']
  | 0x03b0 => some ['\u03a5', '\u0308', '\u0301']
  | 0x0587 => some ['\u0535', '\u0552']
  | 0x1e96 => some ['\u0048', '\u0331']
  | 0x1e97 => some ['\u0054', '\u0308']
  | 0x1e98 => some ['\u0057', '\u030a']
  | 0x1e99 => some ['\u0059', '\u030a']
  | 0x1e9a => some ['\u0041', '\u02be']
  | 0x1f50 => some ['\u03a5', '\u0313']
  | 0x1f52 => some ['\u03a5', '\u0313', '\u0300']
  | 0x1f54 => some ['\u03a5', '\u0313', '\u0301']
  | 0x1f56 => some ['\u03a5', '\u0313', '\u0342']
  | 0x1f80 => some ['\u1f08', '\u0399']
  | 0x1f81 => some ['\u1f09', '\u0399']
  | 0x1f82 => some ['\u1f0a', '\u0399']
  | 0x1f83 => some ['\u1f0b', '\u0399']
  | 0x1f84 => some ['\u1f0c', '\u0399']
  | 0x1f85 => some ['\u1f0d', '\u0399']
  | 0x1f86 => some ['\u1f0e', '\u0399']
  | 0x1f87 => some ['\u1f0f', '\u0399']
  | 0x1f88 => some ['\u1f08', '\u0399']
  | 0x1f89 => some ['\u1f09', '\u0399']
  | 0x1f8a => some ['\u1f0a', '\u0399']
  | 0x1f8b => some ['\u1f0b', '\u0399']
  | 0x1f8c => some ['\u1f0c', '\u0399']
  | 0x1f8d => some ['\u1f0d', '\u0399']
  | 0x1f8e => some ['\u1f0e', '\u0399']
  | 0x1f8f => some ['\u1f0f', '\u0399']
  | 0x1f90 => some ['\u1f28', '\u0399']
  | 0x1f91 => some ['\u1f29', '\u0399']
  | 0x1f92 => some ['\u1f2a', '\u0399']
  | 0x1f93 => some ['\u1f2b', '\u0399']
  | 0x1f94 => some ['\u1f2c', '\u0399']
  | 0x1f95 => some ['\u1f2d', '\u0399']
  | 0x1f96 => some ['\u1f2e', '\u0399']
  | 0x1f97 => some ['\u1f2f', '\u0399']
  | 0x1f98 => some ['\u1f28', '\u0399']
  | 0x1f99 => some ['\u1f29', '\u0399']
  | 0x1f9a => some ['\u1f2a', '\u0399']
  | 0x1f9b => some ['\u1f2b', '\u0399']
  | 0x1f9c => some ['\u1f2c', '\u0399']
  | 0x1f9d => some ['\u1f2d', '\u0399']
  | 0x1f9e => some ['\u1f2e', '\u0399']
  | 0x1f9f => some ['\u1f2f', '\u0399']
  | 0x1fa0 => some ['\u1f68', '\u0399']
  | 0x1fa1 => some ['\u1f69', '\u0399']
  | 0x1fa2 => some ['\u1f6a', '\u0399']
  | 0x1fa3 => some ['\u1f6b', '\u0399']
  | 0x1fa4 => some ['\u1f6c', '\u0399']
  | 0x1fa5 => some ['\u1f6d', '\u0399']
  | 0x1fa6 => some ['\u1f6e', '\u0399']
  | 0x1fa7 => some ['\u1f6f', '\u0399']
  | 0x1fa8 => some ['\u1f68', '\u0399']
  | 0x1fa9 => some ['\u1f69', '\u0399']
  | 0x1faa => some ['\u1f6a', '\u0399']
  | 0x1fab => some ['\u1f6b', '\u0399']
  | 0x1fac => some ['\u1f6c', '\u0399']
  | 0x1fad => some ['\u1f6d', '\u0399']
  | 0x1fae => some ['\u1f6e', '\u0399']
  | 0x1faf => some ['\u1f6f', '\u0399']
  | 0x1fb2 => some ['\u1fba', '\u0399']
  | 0x1fb3 => some ['\u0391', '\u0399']
  | 0x1fb4 => some ['\u0386', '\u0399']
  | 0x1fb6 => some ['\u0391', '\u0342']
  | 0x1fb7 => some ['\u0391', '\u0342', '\u0399']
  | 0x1fbc => some ['\u0391', '\u0399']
  | 0x1fc2 => some ['\u1fca', '\u0399']
  | 0x1fc3 => some ['\u0397', '\u0399']
  | 0x1fc4 => some ['\u0389', '\u0399']
  | 0x1fc6 => some ['\u0397', '\u0342']
  | 0x1fc7 => some ['\u0397', '\u0342', '\u0399']
  | 0x1fcc => some ['\u0397', '\u0399']
  | 0x1fd2 => some ['\u0399', '\u0308', '\u0300']
  | 0x1fd3 => some ['\u0399', '\u0308', '\u0301']
  | 0x1fd6 => some ['\u0399', '\u0342']
  | 0x1fd7 => some ['\u0399', '\u0308', '\u0342']
  | 0x1fe2 => some ['\u03a5', '\u0308', '\u0300']
  | 0x1fe3 => some ['\u03a5', '\u0308', '\u0301']
  | 0x1fe4 => some ['\u03a1', '\u0313']
  | 0x1fe6 => some ['\u03a5', '\u0342']
  | 0x1fe7 => some ['\u03a5', '\u0308', '\u0342']
  | 0x1ff2 => some ['\u1ffa', '\u0399']
  | 0x1ff3 => some ['\u03a9', '\u0399']
  | 0x1ff4 => some ['\u038f', '\u0399']
  | 0x1ff6 => some ['\u03a9', '\u0342']
  | 0x1ff7 => some ['\u03a9', '\u0342', '\u0399']
  | 0x1ffc => some ['\u03a9', '\u0399']
  | 0xfb00 => some ['\u0046', '\u0046']
  | 0xfb01 => some ['\u0046', '\u0049']
  | 0xfb02 => some ['\u0046', '\u004c']
  | 0xfb03 => some ['\u0046', '\u0046', '\u0049']
  | 0xfb04 => some ['\u0046', '\u0046', '\u004c']
  | 0xfb05 => some ['\u0053', '\u0054']
  | 0xfb06 => some ['\u0053', '\u0054']
  | 0xfb13 => some ['\u0544', '\u0546']
  | 0xfb14 => some ['\u0544', '\u0535']
  | 0xfb15 => some ['\u0544', '\u053b']
  | 0xfb16 => some ['\u054e', '\u0546']
  | 0xfb17 => some ['\u0544', '\u053d']
  | _ => none

/-- One character of Python `str.upper()`: the full special casing where it
applies, `Char.toUpper` (the ASCII mapping) otherwise.  One-to-one non-ASCII
mappings (such as accented Latin letters) are modelled as the identity —
they are always length-preserving, like the mappings they stand for, so the
model agrees with Python on the length of every upper-cased string. -/
def pyUpperChar (c : Char) : List Char :=
  match pyUpperSpecial c.toNat with
  | some cs => cs
  | none => [c.toUpper]

/-- Python `str.upper()`. -/
def pyUpper (s : List Char) : List Char :=
  (s.map pyUpperChar).flatten

/-- Python format-spec centering `f"{s:^{width}}"`: if the string is at least
`width` long it is returned unchanged; otherwise it is padded with spaces,
`(width - len) / 2` of them on the left and the rest on the right. -/
def pyCenter (width : Nat) (s : List Char) : List Char :=
  if width ≤ s.length then s
  else
    let marg := width - s.length
    let left := marg / 2
    List.replicate left ' ' ++ s ++ List.replicate (marg - left) ' '

/-- Python `str.expandtabs(tabsize)`: each tab becomes spaces up to the next
multiple of `tabsize`; the column counter resets at `\n` and `\r`. -/
def expandtabsGo (tabsize : Nat) : Nat → List Char → List Char
  | _, [] => []
  | col, c :: cs =>
    if c = '\t' then
      if tabsize = 0 then expandtabsGo tabsize col cs
      else
        let pad := tabsize - col % tabsize
        List.replicate pad ' ' ++ expandtabsGo tabsize (col + pad) cs
    else if c = '\n' || c = '\r' then c :: expandtabsGo tabsize 0 cs
    else c :: expandtabsGo tabsize (col + 1) cs

/-- `TextWrapper._munge_whitespace` with the default options: expand tabs
(tab size 8), then translate each of `"\t\n\x0b\x0c\r "` to a space. -/
def mungeWhitespace (s : List Char) : List Char :=
  (expandtabsGo 8 0 s).map (fun c => if sepIsSpace c then ' ' else c)

/-- Split into maximal runs of whitespace / non-whitespace characters
(the chunk stream `TextWrapper._split` produces, minus hyphen splitting);
`p` is whether the current run is whitespace, `cur` the reversed current run. -/
def splitChunksGo (p : Bool) (cur : List Char) : List Char → List (List Char)
  | [] => [cur.reverse]
  | c :: cs =>
    if sepIsSpace c = p then splitChunksGo p (c :: cur) cs
    else cur.reverse :: splitChunksGo (sepIsSpace c) [c] cs

/-- Chunk a text into alternating word / whitespace chunks. -/
def splitChunks : List Char → List (List Char)
  | [] => []
  | c :: cs => splitChunksGo (sepIsSpace c) [c] cs

/-- The inner loop of `_wrap_chunks`: pop chunks onto the current line while
the running length stays within `width`.  Returns the popped chunks (in
order) and the remaining chunk stream. -/
def fillGreedy (width : Nat) : List (List Char) → Nat → List (List Char) × List (List Char)
  | [], _ => ([], [])
  | c :: cs, curLen =>
    if curLen + c.length ≤ width then
      let r := fillGreedy width cs (curLen + c.length)
      (c :: r.1, r.2)
    else ([], c :: cs)

/-- Python `chunk.rfind('-', 0, stop)`: scan indices `stop-1, ..., 0` for the
last `'-'` strictly before `stop` (and before the end of the chunk). -/
def rfindHyphenGo (chunk : List Char) : Nat → Option Nat
  | 0 => none
  | i + 1 => if chunk.getD i ' ' = '-' then some i else rfindHyphenGo chunk i

/-- `chunk.rfind('-', 0, stop)` as an `Option`. -/
def rfindHyphen (chunk : List Char) (stop : Nat) : Option Nat :=
  rfindHyphenGo chunk (min stop chunk.length)

/-- `TextWrapper._handle_long_word` with `break_long_words=True` and
`break_on_hyphens=True`: split an over-long chunk at the space left on the
current line, preferring to break just after the last hyphen before that
point when the part before the hyphen has a non-hyphen character. -/
def handleLongWord (width curLen : Nat) (chunk : List Char) : List Char × List Char :=
  let spaceLeft := if width < 1 then 1 else width - curLen
  let e :=
    if spaceLeft < chunk.length then
      match rfindHyphen chunk spaceLeft with
      | some h =>
        if 0 < h && (chunk.take h).any (fun c => !(c == '-')) then h + 1 else spaceLeft
      | none => spaceLeft
    else spaceLeft
  (chunk.take e, chunk.drop e)

/-- One line's worth of chunk consumption: greedy fill from length 0, then
long-word handling when the next chunk is wider than the whole line. -/
def buildLine (width : Nat) (chunks : List (List Char)) : List (List Char) × List (List Char) :=
  let fl := fillGreedy width chunks 0
  match fl.2 with
  | c :: cs =>
    if width < c.length then
      let hl := handleLongWord width ((fl.1.map List.length).sum) c
      (fl.1 ++ [hl.1], hl.2 :: cs)
    else (fl.1, fl.2)
  | [] => (fl.1, [])

/-- `drop_whitespace` at the end of a line: if the last chunk on the current
line is entirely whitespace, drop it. -/
def dropTrailingWS (line : List (List Char)) : List (List Char) :=
  match line.getLast? with
  | some lc => if lc.all pyIsSpace then line.dropLast else line
  | none => line

/-- One iteration of the `_wrap_chunks` outer loop: drop a leading whitespace
chunk when lines have already been emitted, build one line greedily, drop a
trailing whitespace chunk, and emit the line only if it is nonempty. -/
def wrapStep (width : Nat) (hasLines : Bool) (chunks : List (List Char)) :
    Option (List Char) × List (List Char) :=
  let chunks1 :=
    match chunks with
    | c :: cs => if hasLines && c.all pyIsSpace then cs else c :: cs
    | [] => []
  let bl := buildLine width chunks1
  let line2 := dropTrailingWS bl.1
  if line2.isEmpty then (none, bl.2) else (some line2.flatten, bl.2)

/-- Termination measure for the wrapping loop: chunk count plus total
character count. -/
def chunksMeasure (chunks : List (List Char)) : Nat :=
  chunks.length + (chunks.map List.length).sum

/-- The `_wrap_chunks` outer loop, driven by explicit fuel (each iteration
strictly decreases `chunksMeasure`, so `chunksMeasure chunks + 1` fuel is
always enough — see `wrapStep_measure_lt` and `wrapLoopF_fuel_stable`). -/
def wrapLoopF (width : Nat) : Nat → Bool → List (List Char) → List (List Char)
  | 0, _, _ => []
  | fuel + 1, hasLines, chunks =>
    match chunks with
    | [] => []
    | c :: cs =>
      let st := wrapStep width hasLines (c :: cs)
      match st.1 with
      | some line => line :: wrapLoopF width fuel true st.2
      | none => wrapLoopF width fuel hasLines st.2

/-- `textwrap.wrap(text, width)` with all other options at their defaults. -/
def pyWrap (text : List Char) (width : Nat) : List (List Char) :=
  let chunks := splitChunks (mungeWhitespace text)
  wrapLoopF width (chunksMeasure chunks + 1) false chunks

/-! ## Layout constants (`src/core/receipt.py`) -/

def CHAR_WIDTH : Nat := 48
def MAX_LINES : Nat := 20
def CHAR_LIMIT : Nat := CHAR_WIDTH * MAX_LINES
def BORDER : List Char := List.replicate CHAR_WIDTH '='
def THIN_BORDER : List Char := List.replicate CHAR_WIDTH '-'

/-- The `PRIORITY_LABELS` dict, as a partial map on `Int`. -/
def PRIORITY_LABELS (p : Int) : Option (List Char) :=
  if p = 0 then some ("FUTURE / BREAKDOWN".toList)
  else if p = 1 then some ("LOW".toList)
  else if p = 2 then some ("MEDIUM".toList)
  else if p = 3 then some ("HIGH".toList)
  else none

/-- A constructed receipt: the fields `Receipt.__init__` stores.  The
`printer_name` field is omitted (it only addresses the physical device and
never influences the built lines); the timestamp is the captured
`datetime.now().strftime("%Y-%m-%d  %H:%M")` string, modelled as an input. -/
structure Receipt where
  title : List Char
  description : List Char
  priority : Int
  priority_label : List Char
  timestamp : List Char

/-- The `ValueError` message `f"Priority must be 0–3, got {priority}"`. -/
def priorityError (p : Int) : List Char :=
  "Priority must be 0–3, got ".toList ++ (toString p).toList

/-- `Receipt.__init__`: validate the priority (raising = `Except.error`),
then store the upper-cased title, the description clipped to `CHAR_LIMIT`,
the priority and its label, and the timestamp. -/
def mkReceipt (title description : List Char) (priority : Int) (timestamp : List Char) :
    Except (List Char) Receipt :=
  match PRIORITY_LABELS priority with
  | none => Except.error (priorityError priority)
  | some lbl =>
    Except.ok
      { title := pyUpper title
        description := description.take CHAR_LIMIT
        priority := priority
        priority_label := lbl
        timestamp := timestamp }

/-- The `MAX_LINES` enforcement inside `Receipt._build_lines`: when more than
`MAX_LINES` wrapped lines exist, keep the first `MAX_LINES` and overwrite the
last kept line with its first `CHAR_WIDTH - 3` characters, right-stripped,
plus `"..."`. -/
def enforceMaxLines (wrapped : List (List Char)) : List (List Char) :=
  if MAX_LINES < wrapped.length then
    let kept := wrapped.take MAX_LINES
    match kept.getLast? with
    | some last => kept.dropLast ++ [pyRstrip (last.take (CHAR_WIDTH - 3)) ++ "...".toList]
    | none => kept
  else wrapped

/-- `Receipt._build_lines`: wrap the description, enforce `MAX_LINES`, then
compose border, centered title, thin border, centered priority line, border,
blank, body, blank, thin border, centered timestamp, border. -/
def Receipt.build_lines (r : Receipt) : List (List Char) :=
  let wrapped := enforceMaxLines (pyWrap r.description CHAR_WIDTH)
  [BORDER,
   pyCenter CHAR_WIDTH r.title,
   THIN_BORDER,
   pyCenter CHAR_WIDTH ("PRIORITY: ".toList ++ r.priority_label),
   BORDER,
   []]
  ++ wrapped ++
  [[],
   THIN_BORDER,
   pyCenter CHAR_WIDTH r.timestamp,
   BORDER]

/-! ## Styled rendering path (`src/core/html_receipt.py`)

Only the pure HTML-building side is embedded; the imgkit/Selenium PNG
renderers are I/O collaborators outside the layout model.  Literal braces of
the CSS template are written with their character escapes. -/

namespace HtmlReceipt

def RECEIPT_WIDTH_PX : Nat := 544
def RECEIPT_HEIGHT_PX : Nat := 567

/-- Hard character limit for the description on the styled path. -/
def DESCRIPTION_CHAR_LIMIT : Nat := 550

/-- The `PRIORITY_LABELS` dict of `html_receipt.py` (same table as the text
engine's). -/
def PRIORITY_LABELS (p : Int) : Option (List Char) :=
  if p = 0 then some ("FUTURE / BREAKDOWN".toList)
  else if p = 1 then some ("LOW".toList)
  else if p = 2 then some ("MEDIUM".toList)
  else if p = 3 then some ("HIGH".toList)
  else none

/-- `truncate(text, limit=DESCRIPTION_CHAR_LIMIT)`: hard-truncate text to the
character limit.  The Python default argument is passed explicitly at the
call site in `build_html`. -/
def truncate (text : List Char) (limit : Nat) : List Char :=
  text.take limit

/-- The f-string template of `build_html`, split at its interpolation points:
everything before `{RECEIPT_WIDTH_PX}`. -/
def HTML_SEG_A : String :=
"<!DOCTYPE html>
<html>
<head>
  <meta charset=\"UTF-8\">
  <style>
    * \x7b
      margin: 0;
      padding: 0;
      box-sizing: border-box;
    \x7d

    body \x7b
      font-family: 'Courier New', Courier, monospace;
      background: white;
      width:    "

/-- Between `{RECEIPT_WIDTH_PX}` and `{RECEIPT_HEIGHT_PX}`. -/
def HTML_SEG_B : String :=
"px;
      height:   "

/-- Between `{RECEIPT_HEIGHT_PX}` and `{title}`. -/
def HTML_SEG_C : String :=
"px;
      overflow: hidden;
      padding: 16px 18px;
      display: flex;
      flex-direction: column;
      justify-content: space-between;
    \x7d

    .border \x7b
      border-top: 2px solid black;
    \x7d

    .title \x7b
      font-size: 34px;
      font-weight: bold;
      text-align: center;
      text-transform: uppercase;
      letter-spacing: 2px;
      padding: 8px 0;
    \x7d

    .priority \x7b
      font-size: 16px;
      text-align: center;
      letter-spacing: 1px;
      padding: 6px 0;
    \x7d

    .description \x7b
      flex: 1;
      display: flex;
      align-items: center;
      justify-content: center;
      padding: 8px 0;
      overflow: hidden;
    \x7d

    .description p \x7b
      font-size: 20px;
      line-height: 1.45;
      text-align: center;
      word-wrap: break-word;
      width: 100%;
      margin: 0;
    \x7d

    .timestamp \x7b
      font-size: 14px;
      text-align: center;
      color: #555;
      padding: 6px 0;
    \x7d
  </style>
</head>
<body>
  <div>
    <div class=\"border\"></div>
    <div class=\"title\">"

/-- Between `{title}` and the literal `PRIORITY: ` preceding
`{priority_label}`. -/
def HTML_SEG_D : String :=
"</div>
    <div class=\"border\"></div>
    <div class=\"priority\">"

/-- Between `{priority_label}` and `{description}`. -/
def HTML_SEG_E : String :=
"</div>
    <div class=\"border\"></div>
  </div>

  <div class=\"description\"><p>"

/-- Between `{description}` and `{timestamp}`. -/
def HTML_SEG_F : String :=
"</p></div>

  <div>
    <div class=\"border\"></div>
    <div class=\"timestamp\">"

/-- After `{timestamp}`. -/
def HTML_SEG_G : String :=
"</div>
    <div class=\"border\"></div>
  </div>
</body>
</html>"

/-- `build_html(title, description, priority)`: look the priority up with
`UNKNOWN` as the fallback (never failing), capture the timestamp (modelled as
a parameter), truncate the description to `DESCRIPTION_CHAR_LIMIT`, and
splice everything into the template. -/
def build_html (title description : List Char) (priority : Int) (timestamp : List Char) :
    List Char :=
  let priority_label := (PRIORITY_LABELS priority).getD ("UNKNOWN".toList)
  let description := truncate description DESCRIPTION_CHAR_LIMIT
  HTML_SEG_A.toList ++ (toString RECEIPT_WIDTH_PX).toList
    ++ HTML_SEG_B.toList ++ (toString RECEIPT_HEIGHT_PX).toList
    ++ HTML_SEG_C.toList ++ title
    ++ HTML_SEG_D.toList ++ "PRIORITY: ".toList ++ priority_label
    ++ HTML_SEG_E.toList ++ description
    ++ HTML_SEG_F.toList ++ timestamp
    ++ HTML_SEG_G.toList

end HtmlReceipt

/-! ## Concrete inputs used by witnesses and counterexamples -/

/-- 21 words of 48 `a`s: wraps to 21 lines, exceeding `MAX_LINES`. -/
def wDesc21 : List Char := (List.replicate 21 (List.replicate 48 'a' ++ [' '])).flatten

/-- 2000 `a`s: one unbroken token, clips to 960 and wraps to exactly 20
full lines. -/
def wDesc2000A : List Char := List.replicate 2000 'a'

/-- `("x"*47 ++ " y ") * 40`: 2000 characters whose 960-character clip wraps
to 38 lines. -/
def wDesc2000XY : List Char := (List.replicate 40 (List.replicate 47 'x' ++ [' ', 'y', ' '])).flatten

/-- A timestamp string in the `"%Y-%m-%d  %H:%M"` shape the constructor
captures. -/
def wTs : List Char := "2026-10-12  09:30".toList

/-- A second, different timestamp of the same shape. -/
def wTs2 : List Char := "2027-01-31  23:59".toList

/-- The receipt `mkReceipt "t" wDesc2000XY 0 wTs` constructs. -/
def wR6 : Receipt :=
  ⟨pyUpper ("t".toList), wDesc2000XY.take CHAR_LIMIT, 0, "FUTURE / BREAKDOWN".toList, wTs⟩

/-! ## Supporting lemmas -/

theorem length_dropWhile_le (p : Char → Bool) (l : List Char) :
    (l.dropWhile p).length ≤ l.length := by
  induction l with
  | nil => simp
  | cons a l ih =>
    by_cases h : p a
    · rw [List.dropWhile_cons_of_pos h]
      simp only [List.length_cons]
      omega
    · rw [List.dropWhile_cons_of_neg h]

theorem pyRstrip_length_le (s : List Char) : (pyRstrip s).length ≤ s.length := by
  unfold pyRstrip
  simpa using length_dropWhile_le pyIsSpace s.reverse

theorem pyCenter_length (width : Nat) (s : List Char) :
    (pyCenter width s).length = max width s.length := by
  unfold pyCenter
  by_cases h : width ≤ s.length
  · rw [if_pos h]; omega
  · rw [if_neg h]; simp; omega

theorem sum_map_dropLast_le (f : List Char → Nat) (l : List (List Char)) :
    (l.dropLast.map f).sum ≤ (l.map f).sum := by
  rw [List.map_dropLast]
  induction (l.map f) with
  | nil => simp
  | cons a m ih =>
    cases m with
    | nil => simp
    | cons b k =>
      have h : (a :: b :: k).dropLast = a :: (b :: k).dropLast := rfl
      rw [h, List.sum_cons, List.sum_cons]
      omega

theorem fillGreedy_sum_le (width : Nat) (chunks : List (List Char)) :
    ∀ curLen : Nat, curLen ≤ width →
      curLen + (((fillGreedy width chunks curLen).1).map List.length).sum ≤ width := by
  induction chunks with
  | nil => intro c h; simpa [fillGreedy] using h
  | cons a l ih =>
    intro c h
    by_cases hfit : c + a.length ≤ width
    · rw [fillGreedy]
      simp only [if_pos hfit, List.map_cons, List.sum_cons]
      have := ih (c + a.length) hfit
      omega
    · rw [fillGreedy]
      simp only [if_neg hfit, List.map_nil, List.sum_nil]
      omega

theorem fillGreedy_append (width : Nat) (chunks : List (List Char)) :
    ∀ curLen, (fillGreedy width chunks curLen).1 ++ (fillGreedy width chunks curLen).2 = chunks := by
  induction chunks with
  | nil => intro c; simp [fillGreedy]
  | cons a l ih =>
    intro c
    by_cases hfit : c + a.length ≤ width
    · rw [fillGreedy]
      simp only [if_pos hfit, List.cons_append, List.cons.injEq, true_and]
      exact ih (c + a.length)
    · rw [fillGreedy]
      simp [if_neg hfit]

theorem rfindHyphenGo_lt (chunk : List Char) :
    ∀ n h, rfindHyphenGo chunk n = some h → h < n := by
  intro n
  induction n with
  | zero => intro h hh; simp [rfindHyphenGo] at hh
  | succ m ih =>
    intro h hh
    rw [rfindHyphenGo] at hh
    by_cases hc : chunk.getD m ' ' = '-'
    · rw [if_pos hc] at hh
      simp only [Option.some.injEq] at hh
      omega
    · rw [if_neg hc] at hh
      have := ih h hh
      omega

theorem rfindHyphen_lt (chunk : List Char) (stop h : Nat)
    (hh : rfindHyphen chunk stop = some h) : h < stop ∧ h < chunk.length := by
  have := rfindHyphenGo_lt chunk (min stop chunk.length) h hh
  omega

theorem handleLongWord_fst_le (width curLen : Nat) (chunk : List Char)
    (hw : 1 ≤ width) (hc : curLen ≤ width) :
    curLen + (handleLongWord width curLen chunk).1.length ≤ width := by
  have hnlt : ¬ width < 1 := by omega
  have hle : ∀ e : Nat, e ≤ width - curLen → curLen + (chunk.take e).length ≤ width := by
    intro e he
    rw [List.length_take]
    omega
  unfold handleLongWord
  simp only [hnlt, if_false]
  apply hle
  split
  · next hlong =>
    split
    · next hfound heq =>
      split
      · next hcond =>
        exact (rfindHyphen_lt chunk (width - curLen) hfound heq).1
      · omega
    · omega
  · omega

theorem buildLine_sum_le (width : Nat) (hw : 1 ≤ width) (chunks : List (List Char)) :
    (((buildLine width chunks).1).map List.length).sum ≤ width := by
  have h0 := fillGreedy_sum_le width chunks 0 (by omega)
  rw [Nat.zero_add] at h0
  simp only [buildLine]
  split
  · next c cs heq =>
    split
    · next hwc =>
      simp only [List.map_append, List.sum_append, List.map_cons, List.sum_cons,
        List.map_nil, List.sum_nil]
      have hl := handleLongWord_fst_le width
        (((fillGreedy width chunks 0).1.map List.length).sum) c hw h0
      omega
    · next hwc => exact h0
  · next heq => exact h0

theorem dropTrailingWS_sum_le (line : List (List Char)) :
    ((dropTrailingWS line).map List.length).sum ≤ (line.map List.length).sum := by
  unfold dropTrailingWS
  split
  · next lc heq =>
    split
    · exact sum_map_dropLast_le List.length line
    · exact Nat.le_refl _
  · exact Nat.le_refl _

theorem wrapStep_line_le (width : Nat) (hw : 1 ≤ width) (b : Bool)
    (chunks : List (List Char)) (line : List Char)
    (h : (wrapStep width b chunks).1 = some line) :
    line.length ≤ width := by
  simp only [wrapStep] at h
  split at h
  · simp at h
  · simp only [Option.some.injEq] at h
    subst h
    rw [List.length_flatten]
    calc ((dropTrailingWS (buildLine width _).1).map List.length).sum
        ≤ ((buildLine width _).1.map List.length).sum := dropTrailingWS_sum_le _
      _ ≤ width := buildLine_sum_le width hw _

theorem wrapLoopF_line_le (width : Nat) (hw : 1 ≤ width) :
    ∀ (fuel : Nat) (b : Bool) (chunks : List (List Char)) (l : List Char),
      l ∈ wrapLoopF width fuel b chunks → l.length ≤ width := by
  intro fuel
  induction fuel with
  | zero => intro b chunks l hl; simp [wrapLoopF] at hl
  | succ n ih =>
    intro b chunks l hl
    cases chunks with
    | nil => simp [wrapLoopF] at hl
    | cons c cs =>
      simp only [wrapLoopF] at hl
      split at hl
      · next line heq =>
        rcases List.mem_cons.mp hl with h | h
        · subst h; exact wrapStep_line_le width hw b (c :: cs) l heq
        · exact ih true _ l h
      · next heq => exact ih b _ l hl

theorem pyWrap_line_le (text l : List Char) (h : l ∈ pyWrap text CHAR_WIDTH) :
    l.length ≤ CHAR_WIDTH := by
  simp only [pyWrap] at h
  exact wrapLoopF_line_le CHAR_WIDTH (by decide) _ _ _ l h

theorem enforceMaxLines_length_le (w : List (List Char)) :
    (enforceMaxLines w).length ≤ MAX_LINES := by
  simp only [enforceMaxLines]
  split
  · next hlen =>
    split
    · next last heq =>
      simp only [List.length_append, List.length_dropLast, List.length_take,
        List.length_cons, List.length_nil]
      simp only [MAX_LINES] at hlen ⊢
      omega
    · next heq =>
      simp only [List.length_take]
      omega
  · next hlen => omega

theorem enforceMaxLines_line_le (w : List (List Char))
    (hall : ∀ l ∈ w, l.length ≤ CHAR_WIDTH) :
    ∀ l ∈ enforceMaxLines w, l.length ≤ CHAR_WIDTH := by
  simp only [enforceMaxLines]
  split
  · next hlen =>
    split
    · next last heq =>
      intro l hl
      rcases List.mem_append.mp hl with h | h
      · exact hall l (((w.take MAX_LINES).dropLast_sublist.trans
          (List.take_sublist _ _)).subset h)
      · rw [List.mem_singleton] at h
        subst h
        rw [List.length_append]
        have h1 : (pyRstrip (last.take (CHAR_WIDTH - 3))).length ≤ CHAR_WIDTH - 3 := by
          calc (pyRstrip (last.take (CHAR_WIDTH - 3))).length
              ≤ (last.take (CHAR_WIDTH - 3)).length := pyRstrip_length_le _
            _ ≤ CHAR_WIDTH - 3 := by rw [List.length_take]; omega
        have h2 : ("...".toList).length = 3 := by decide
        simp only [CHAR_WIDTH] at h1 ⊢
        omega
    · next heq =>
      intro l hl
      exact hall l ((List.take_sublist _ _).subset hl)
  · next hlen => exact hall

/-! ### Termination of the wrapping loop

Each iteration of the `_wrap_chunks` outer loop strictly decreases
`chunksMeasure`, so the fuel `chunksMeasure chunks + 1` that `pyWrap` supplies
can never run out (`wrapLoopF_fuel_stable`). -/

theorem chunksMeasure_append (a b : List (List Char)) :
    chunksMeasure (a ++ b) = chunksMeasure a + chunksMeasure b := by
  simp [chunksMeasure]
  omega

theorem handleLongWord_snd_le (width curLen : Nat) (chunk : List Char) :
    (handleLongWord width curLen chunk).2.length ≤ chunk.length := by
  simp only [handleLongWord]
  rw [List.length_drop]
  omega

theorem handleLongWord_snd_lt (width : Nat) (chunk : List Char) (h : 0 < chunk.length) :
    (handleLongWord width 0 chunk).2.length < chunk.length := by
  have he : ∀ e : Nat, 1 ≤ e → (chunk.drop e).length < chunk.length := by
    intro e h1
    rw [List.length_drop]
    omega
  simp only [handleLongWord]
  apply he
  repeat' split
  all_goals first
  | omega
  | exact Nat.le_add_left 1 _

theorem buildLine_measure_le (width : Nat) (chunks : List (List Char)) :
    chunksMeasure (buildLine width chunks).2 ≤ chunksMeasure chunks := by
  have happ := fillGreedy_append width chunks 0
  have hsplit : chunksMeasure (fillGreedy width chunks 0).2 ≤ chunksMeasure chunks := by
    calc chunksMeasure (fillGreedy width chunks 0).2
        ≤ chunksMeasure (fillGreedy width chunks 0).1
          + chunksMeasure (fillGreedy width chunks 0).2 := by omega
      _ = chunksMeasure chunks := by rw [← chunksMeasure_append, happ]
  simp only [buildLine]
  split
  · next c cs heq =>
    split
    · next hwc =>
      rw [heq] at hsplit
      have hsle := handleLongWord_snd_le width
        (((fillGreedy width chunks 0).1.map List.length).sum) c
      simp only [chunksMeasure, List.length_cons, List.map_cons, List.sum_cons] at hsplit ⊢
      omega
    · next hwc =>
      show chunksMeasure (fillGreedy width chunks 0).2 ≤ chunksMeasure chunks
      exact hsplit
  · next heq => simp [chunksMeasure]

theorem buildLine_measure_lt (width : Nat) (c : List Char) (cs : List (List Char)) :
    chunksMeasure (buildLine width (c :: cs)).2 < chunksMeasure (c :: cs) := by
  rcases hfst : (fillGreedy width (c :: cs) 0).1 with _ | ⟨d, ds⟩
  · -- nothing fitted: the head chunk is wider than the whole line
    have hkey : fillGreedy width (c :: cs) 0 = ([], c :: cs) := by
      rw [fillGreedy] at hfst ⊢
      by_cases hfit : 0 + c.length ≤ width
      · rw [if_pos hfit] at hfst; simp at hfst
      · rw [if_neg hfit]
    have hwc : width < c.length := by
      by_contra hcon
      rw [fillGreedy, if_pos (by omega)] at hfst
      simp at hfst
    simp only [buildLine, hkey]
    rw [if_pos hwc]
    have hlt := handleLongWord_snd_lt width c (by omega)
    simp only [chunksMeasure, List.length_cons, List.map_cons, List.sum_cons,
      List.map_nil, List.sum_nil]
    omega
  · -- at least one chunk was consumed
    have happ := fillGreedy_append width (c :: cs) 0
    have hble := buildLine_measure_le width (c :: cs)
    have hmeas : chunksMeasure (fillGreedy width (c :: cs) 0).1
        + chunksMeasure (fillGreedy width (c :: cs) 0).2 = chunksMeasure (c :: cs) := by
      rw [← chunksMeasure_append, happ]
    have hpos : 1 ≤ chunksMeasure (fillGreedy width (c :: cs) 0).1 := by
      rw [hfst]
      simp only [chunksMeasure, List.length_cons, List.map_cons, List.sum_cons]
      omega
    -- bl.2's measure is bounded by fl.2's measure
    have hble2 : chunksMeasure (buildLine width (c :: cs)).2
        ≤ chunksMeasure (fillGreedy width (c :: cs) 0).2 := by
      simp only [buildLine]
      split
    -- the two cases of the match on (fillGreedy width (c :: cs) 0).2
      · next e es heq =>
        split
        · next hwc =>
          rw [heq]
          have hsle := handleLongWord_snd_le width
            (((fillGreedy width (c :: cs) 0).1.map List.length).sum) e
          simp only [chunksMeasure, List.length_cons, List.map_cons, List.sum_cons]
          omega
        · next hwc => exact Nat.le_refl _
      · next heq => rw [heq]
    omega

theorem wrapStep_measure_lt (width : Nat) (b : Bool) (c : List Char) (cs : List (List Char)) :
    chunksMeasure (wrapStep width b (c :: cs)).2 < chunksMeasure (c :: cs) := by
  by_cases hdrop : b && c.all pyIsSpace
  · have h2 : (wrapStep width b (c :: cs)).2 = (buildLine width cs).2 := by
      simp only [wrapStep, if_pos hdrop]
      split <;> rfl
    rw [h2]
    calc chunksMeasure (buildLine width cs).2
        ≤ chunksMeasure cs := buildLine_measure_le width cs
      _ < chunksMeasure (c :: cs) := by
          simp only [chunksMeasure, List.length_cons, List.map_cons, List.sum_cons]
          omega
  · have h2 : (wrapStep width b (c :: cs)).2 = (buildLine width (c :: cs)).2 := by
      simp only [wrapStep, if_neg hdrop]
      split <;> rfl
    rw [h2]
    exact buildLine_measure_lt width c cs

theorem wrapLoopF_cons (width fuel : Nat) (b : Bool) (c : List Char) (cs : List (List Char)) :
    wrapLoopF width (fuel + 1) b (c :: cs)
      = match (wrapStep width b (c :: cs)).1 with
        | some line => line :: wrapLoopF width fuel true (wrapStep width b (c :: cs)).2
        | none => wrapLoopF width fuel b (wrapStep width b (c :: cs)).2 := rfl

theorem wrapLoopF_fuel_stable (width : Nat) :
    ∀ (fuel : Nat) (b : Bool) (chunks : List (List Char)), chunksMeasure chunks ≤ fuel →
      wrapLoopF width (fuel + 1) b chunks = wrapLoopF width fuel b chunks := by
  intro fuel
  induction fuel with
  | zero =>
    intro b chunks h
    have hnil : chunks = [] := by
      cases chunks with
      | nil => rfl
      | cons c cs => simp [chunksMeasure] at h
    subst hnil
    simp [wrapLoopF]
  | succ n ih =>
    intro b chunks h
    cases chunks with
    | nil => simp [wrapLoopF]
    | cons c cs =>
      have hm := wrapStep_measure_lt width b c cs
      rw [wrapLoopF_cons width (n + 1) b c cs, wrapLoopF_cons width n b c cs]
      cases hst : (wrapStep width b (c :: cs)).1 with
      | some line =>
        simp only [hst]
        rw [ih true (wrapStep width b (c :: cs)).2 (by omega)]
      | none =>
        simp only [hst]
        rw [ih b (wrapStep width b (c :: cs)).2 (by omega)]

theorem enforceMaxLines_of_lt (w : List (List Char)) (h : MAX_LINES < w.length) :
    enforceMaxLines w = (w.take MAX_LINES).dropLast
      ++ [pyRstrip ((w.getD (MAX_LINES - 1) []).take (CHAR_WIDTH - 3)) ++ "...".toList] := by
  have h19 : MAX_LINES - 1 < w.length := by omega
  have hlast : (w.take MAX_LINES).getLast? = some (w.getD (MAX_LINES - 1) []) := by
    rw [List.getLast?_eq_getElem?, List.length_take]
    have hmin : min MAX_LINES w.length = MAX_LINES := by omega
    rw [hmin, List.getElem?_take, if_pos (show MAX_LINES - 1 < MAX_LINES by decide),
      List.getD_eq_getElem?_getD, List.getElem?_eq_getElem h19]
    rfl
  simp only [enforceMaxLines, if_pos h]
  rw [hlast]

theorem mkReceipt_ok_fields (t d : List Char) (p : Int) (ts : List Char) (r : Receipt)
    (h : mkReceipt t d p ts = Except.ok r) :
    ∃ lbl, PRIORITY_LABELS p = some lbl ∧
      r = ⟨pyUpper t, d.take CHAR_LIMIT, p, lbl, ts⟩ := by
  unfold mkReceipt at h
  cases hp : PRIORITY_LABELS p with
  | none => rw [hp] at h; simp at h
  | some lbl =>
    rw [hp] at h
    simp only [Except.ok.injEq] at h
    exact ⟨lbl, rfl, h.symm⟩

/-! ## Claim theorems -/

/-- C1: for every receipt, the wrapped description body that `_build_lines`
emits never exceeds `MAX_LINES = 20` lines (and the full output is exactly
10 lines plus the body); whenever the word-wrapped form of the (already
clipped) description exceeds 20 lines, only the first 20 wrapped lines are
kept and the last kept line is replaced by its first `CHAR_WIDTH - 3 = 45`
characters with trailing whitespace trimmed followed by the 3-character
marker `...`, so that the final body line ends with `...` and has length at
most 48. -/
theorem claim_C1_max_lines_and_trunc_marker (r : Receipt) :
    (enforceMaxLines (pyWrap r.description CHAR_WIDTH)).length ≤ MAX_LINES ∧
    r.build_lines.length = 10 + (enforceMaxLines (pyWrap r.description CHAR_WIDTH)).length ∧
    (MAX_LINES < (pyWrap r.description CHAR_WIDTH).length →
      enforceMaxLines (pyWrap r.description CHAR_WIDTH)
        = ((pyWrap r.description CHAR_WIDTH).take MAX_LINES).dropLast
          ++ [pyRstrip (((pyWrap r.description CHAR_WIDTH).getD (MAX_LINES - 1) []).take
                (CHAR_WIDTH - 3)) ++ "...".toList] ∧
      ∀ m, (enforceMaxLines (pyWrap r.description CHAR_WIDTH)).getLast? = some m →
        "...".toList <:+ m ∧ m.length ≤ CHAR_WIDTH) := by
  refine ⟨enforceMaxLines_length_le _, ?_, ?_⟩
  · simp only [Receipt.build_lines, List.length_append, List.length_cons, List.length_nil]
    omega
  · intro hgt
    have heq := enforceMaxLines_of_lt _ hgt
    refine ⟨heq, ?_⟩
    intro m hm
    rw [heq, List.getLast?_concat] at hm
    obtain rfl : pyRstrip (((pyWrap r.description CHAR_WIDTH).getD (MAX_LINES - 1) []).take
        (CHAR_WIDTH - 3)) ++ "...".toList = m := by
      simpa using hm
    constructor
    · exact List.suffix_append _ _
    · rw [List.length_append]
      have h1 : (pyRstrip (((pyWrap r.description CHAR_WIDTH).getD (MAX_LINES - 1) []).take
          (CHAR_WIDTH - 3))).length ≤ CHAR_WIDTH - 3 := by
        calc (pyRstrip (((pyWrap r.description CHAR_WIDTH).getD (MAX_LINES - 1) []).take
            (CHAR_WIDTH - 3))).length
            ≤ (((pyWrap r.description CHAR_WIDTH).getD (MAX_LINES - 1) []).take
              (CHAR_WIDTH - 3)).length := pyRstrip_length_le _
          _ ≤ CHAR_WIDTH - 3 := by rw [List.length_take]; omega
      have h2 : ("...".toList).length = 3 := by decide
      simp only [CHAR_WIDTH] at h1 ⊢
      omega

/-- C1 witness: a receipt whose description wraps to 21 lines triggers the
truncation branch; its final body line carries the `...` marker. -/
theorem claim_C1_max_lines_and_trunc_marker_witness :
    MAX_LINES < (pyWrap wDesc21 CHAR_WIDTH).length ∧
    (enforceMaxLines (pyWrap wDesc21 CHAR_WIDTH)).length ≤ MAX_LINES ∧
    ∀ m, (enforceMaxLines (pyWrap wDesc21 CHAR_WIDTH)).getLast? = some m →
      "...".toList <:+ m ∧ m.length ≤ CHAR_WIDTH := by
  have hgt : MAX_LINES < (pyWrap wDesc21 CHAR_WIDTH).length := by decide
  have h := claim_C1_max_lines_and_trunc_marker ⟨[], wDesc21, 0, "LOW".toList, []⟩
  exact ⟨hgt, h.1, (h.2.2 hgt).2⟩

/-- C2: construction fails with the `ValueError` message exactly for the
priorities outside {0,1,2,3}; for priorities inside the set it succeeds and
stores the priority unchanged (no silent coercion). -/
theorem claim_C2_priority_validation (t d ts : List Char) (p : Int) :
    (¬(p = 0 ∨ p = 1 ∨ p = 2 ∨ p = 3) ↔
      mkReceipt t d p ts = Except.error (priorityError p)) ∧
    ((p = 0 ∨ p = 1 ∨ p = 2 ∨ p = 3) ↔
      ∃ r, mkReceipt t d p ts = Except.ok r ∧ r.priority = p) := by
  have hcases : PRIORITY_LABELS p = none ↔ ¬(p = 0 ∨ p = 1 ∨ p = 2 ∨ p = 3) := by
    unfold PRIORITY_LABELS
    split_ifs <;> simp_all
  unfold mkReceipt
  cases hp : PRIORITY_LABELS p with
  | none =>
    have hv := hcases.mp hp
    constructor
    · exact iff_of_true hv rfl
    · refine iff_of_false hv ?_
      rintro ⟨r, hr, -⟩
      cases hr
  | some lbl =>
    have hv : p = 0 ∨ p = 1 ∨ p = 2 ∨ p = 3 := by
      by_contra hc
      rw [hcases.mpr hc] at hp
      cases hp
    constructor
    · refine iff_of_false (not_not_intro hv) ?_
      intro hcon
      cases hcon
    · exact iff_of_true hv ⟨_, rfl, rfl⟩

/-- C2 witness: a rejected priority (5) and an accepted one (2). -/
theorem claim_C2_priority_validation_witness :
    mkReceipt ("t".toList) ("d".toList) 5 wTs = Except.error (priorityError 5) ∧
    ∃ r, mkReceipt ("t".toList) ("d".toList) 2 wTs = Except.ok r ∧ r.priority = 2 := by
  constructor
  · exact (claim_C2_priority_validation ("t".toList) ("d".toList) wTs 5).1.mp (by decide)
  · exact (claim_C2_priority_validation ("t".toList) ("d".toList) wTs 2).2.mp (by decide)

theorem PRIORITY_LABELS_some_length (p : Int) (lbl : List Char)
    (h : PRIORITY_LABELS p = some lbl) : lbl.length ≤ 18 := by
  unfold PRIORITY_LABELS at h
  split_ifs at h <;> simp only [Option.some.injEq] at h <;> subst h <;> decide

/-- C3: for every valid priority, line index 3 of `_build_lines` is exactly
`"PRIORITY: "` concatenated with the priority's label (0 → FUTURE /
BREAKDOWN, 1 → LOW, 2 → MEDIUM, 3 → HIGH), centered as one unit to exactly
48 characters. -/
theorem claim_C3_priority_line (t d ts : List Char) (p : Int) (r : Receipt) (lbl : List Char)
    (hok : mkReceipt t d p ts = Except.ok r) (hlbl : PRIORITY_LABELS p = some lbl) :
    r.build_lines[3]? = some (pyCenter CHAR_WIDTH ("PRIORITY: ".toList ++ lbl)) ∧
    (pyCenter CHAR_WIDTH ("PRIORITY: ".toList ++ lbl)).length = CHAR_WIDTH ∧
    (p = 0 → lbl = "FUTURE / BREAKDOWN".toList) ∧ (p = 1 → lbl = "LOW".toList) ∧
    (p = 2 → lbl = "MEDIUM".toList) ∧ (p = 3 → lbl = "HIGH".toList) := by
  obtain ⟨lbl2, hl2, hr⟩ := mkReceipt_ok_fields t d p ts r hok
  rw [hl2] at hlbl
  simp only [Option.some.injEq] at hlbl
  subst hlbl
  subst hr
  refine ⟨?_, ?_, ?_, ?_, ?_, ?_⟩
  · simp [Receipt.build_lines]
  · rw [pyCenter_length]
    have hlen := PRIORITY_LABELS_some_length p lbl2 hl2
    have h10 : ("PRIORITY: ".toList).length = 10 := by decide
    rw [List.length_append, h10]
    simp only [CHAR_WIDTH]
    omega
  · intro hpv
    subst hpv
    rw [show PRIORITY_LABELS 0 = some ("FUTURE / BREAKDOWN".toList) from by decide] at hl2
    simp only [Option.some.injEq] at hl2
    exact hl2.symm
  · intro hpv
    subst hpv
    rw [show PRIORITY_LABELS 1 = some ("LOW".toList) from by decide] at hl2
    simp only [Option.some.injEq] at hl2
    exact hl2.symm
  · intro hpv
    subst hpv
    rw [show PRIORITY_LABELS 2 = some ("MEDIUM".toList) from by decide] at hl2
    simp only [Option.some.injEq] at hl2
    exact hl2.symm
  · intro hpv
    subst hpv
    rw [show PRIORITY_LABELS 3 = some ("HIGH".toList) from by decide] at hl2
    simp only [Option.some.injEq] at hl2
    exact hl2.symm

/-- C3 witness at priority 1. -/
theorem claim_C3_priority_line_witness :
    ∃ r, mkReceipt ("a".toList) ("b".toList) 1 wTs = Except.ok r ∧
      r.build_lines[3]? = some (pyCenter CHAR_WIDTH ("PRIORITY: ".toList ++ "LOW".toList)) ∧
      (pyCenter CHAR_WIDTH ("PRIORITY: ".toList ++ "LOW".toList)).length = CHAR_WIDTH := by
  have h := claim_C3_priority_line ("a".toList) ("b".toList) wTs 1
    ⟨pyUpper ("a".toList), ("b".toList).take CHAR_LIMIT, 1, "LOW".toList, wTs⟩
    ("LOW".toList) rfl rfl
  exact ⟨_, rfl, h.1, h.2.1⟩

/-- C4 counterexample: a 60-character title makes the centered title line 60
characters long; and even a title of only 25 characters — 25 `'\u00df'`s,
well within the 48-column width — upper-cases to the 50-character
`"SS" * 25` and yields a 50-character title line.  Both refute "every line
is ≤ 48 except borders and centered fields, which are exactly 48" (which
entails all lines ≤ 48), and the second shows the line width cannot be
bounded by the raw title length, only by the upper-cased one. -/
theorem claim_C4_counterexample :
    (∃ r, mkReceipt (List.replicate 60 'a') ("ok".toList) 2 wTs = Except.ok r ∧
      (r.build_lines.map List.length)[1]? = some 60 ∧
      ¬ (∀ l ∈ r.build_lines, l.length ≤ CHAR_WIDTH)) ∧
    (List.replicate 25 '\u00df').length = 25 ∧
    (∃ r, mkReceipt (List.replicate 25 '\u00df') ("ok".toList) 2 wTs = Except.ok r ∧
      r.title = List.replicate 50 'S' ∧
      (r.build_lines.map List.length)[1]? = some 50 ∧
      ¬ (∀ l ∈ r.build_lines, l.length ≤ CHAR_WIDTH)) := by
  refine ⟨⟨_, rfl, by decide, by decide⟩, by decide, _, rfl, by decide, by decide, by decide⟩

/-- C4 (amended): every emitted line has length at most 48 whenever the
upper-cased title and the timestamp themselves fit in 48 columns (the code's
timestamps, of the fixed 17-character `"%Y-%m-%d  %H:%M"` format, always
do).  The borders are always exactly 48 characters of `=` and `-`, and the
centered title, priority and timestamp lines are exactly 48 characters under
the same proviso.  An over-wide upper-cased title — an over-length input, or
a short one whose upper-casing lengthens it past 48 — is emitted unpadded at
its own length. -/
theorem claim_C4_line_widths (t d ts : List Char) (p : Int) (r : Receipt)
    (hok : mkReceipt t d p ts = Except.ok r)
    (ht : (pyUpper t).length ≤ CHAR_WIDTH) (hts : ts.length ≤ CHAR_WIDTH) :
    (∀ l ∈ r.build_lines, l.length ≤ CHAR_WIDTH) ∧
    BORDER = List.replicate 48 '=' ∧ THIN_BORDER = List.replicate 48 '-' ∧
    BORDER.length = CHAR_WIDTH ∧ THIN_BORDER.length = CHAR_WIDTH ∧
    (pyCenter CHAR_WIDTH r.title).length = CHAR_WIDTH ∧
    (pyCenter CHAR_WIDTH ("PRIORITY: ".toList ++ r.priority_label)).length = CHAR_WIDTH ∧
    (pyCenter CHAR_WIDTH r.timestamp).length = CHAR_WIDTH := by
  obtain ⟨lbl, hlbl, hr⟩ := mkReceipt_ok_fields t d p ts r hok
  subst hr
  have hlbl18 := PRIORITY_LABELS_some_length p lbl hlbl
  have htitle : (pyCenter CHAR_WIDTH (pyUpper t)).length = CHAR_WIDTH := by
    rw [pyCenter_length]
    omega
  have hprio : (pyCenter CHAR_WIDTH ("PRIORITY: ".toList ++ lbl)).length = CHAR_WIDTH := by
    rw [pyCenter_length, List.length_append,
      show ("PRIORITY: ".toList).length = 10 from by decide]
    simp only [CHAR_WIDTH] at hlbl18 ⊢
    omega
  have htsl : (pyCenter CHAR_WIDTH ts).length = CHAR_WIDTH := by
    rw [pyCenter_length]
    omega
  refine ⟨?_, rfl, rfl, by decide, by decide, htitle, hprio, htsl⟩
  intro l hl
  simp only [Receipt.build_lines] at hl
  rcases List.mem_append.mp hl with hAB | hC
  · rcases List.mem_append.mp hAB with hA | hB
    · simp only [List.mem_cons, List.not_mem_nil, or_false] at hA
      rcases hA with rfl | rfl | rfl | rfl | rfl | rfl
      · decide
      · rw [htitle]
      · decide
      · rw [hprio]
      · decide
      · decide
    · exact enforceMaxLines_line_le _ (fun x hx => pyWrap_line_le _ x hx) l hB
  · simp only [List.mem_cons, List.not_mem_nil, or_false] at hC
    rcases hC with rfl | rfl | rfl | rfl
    · decide
    · decide
    · rw [htsl]
    · decide

/-- C4 (amended) witness at a concrete receipt with fitting title and
timestamp. -/
theorem claim_C4_line_widths_witness :
    ∃ r, mkReceipt ("Buy Milk".toList) ("some words here".toList) 3 wTs = Except.ok r ∧
      (∀ l ∈ r.build_lines, l.length ≤ CHAR_WIDTH) ∧
      (pyCenter CHAR_WIDTH r.title).length = CHAR_WIDTH := by
  have h := claim_C4_line_widths ("Buy Milk".toList) ("some words here".toList) wTs 3
    ⟨pyUpper ("Buy Milk".toList), ("some words here".toList).take CHAR_LIMIT, 3,
      "HIGH".toList, wTs⟩ rfl (by decide) (by decide)
  exact ⟨_, rfl, h.1, h.2.2.2.2.2.1⟩

/-- C5: the output is exactly, in this fixed order: border, centered
upper-cased title, thin border, centered priority line, border, one blank
line, the wrapped description lines as produced by the wrap step, one blank
line, thin border, centered timestamp, border — 10 lines plus the body; an
empty description yields an empty body, leaving the two blank separators
adjacent. -/
theorem claim_C5_layout_order (t d ts : List Char) (p : Int) (r : Receipt)
    (hok : mkReceipt t d p ts = Except.ok r) :
    r.build_lines
      = [BORDER, pyCenter CHAR_WIDTH (pyUpper t), THIN_BORDER,
         pyCenter CHAR_WIDTH ("PRIORITY: ".toList ++ r.priority_label), BORDER, []]
        ++ enforceMaxLines (pyWrap (d.take CHAR_LIMIT) CHAR_WIDTH)
        ++ [[], THIN_BORDER, pyCenter CHAR_WIDTH ts, BORDER] ∧
    r.build_lines.length
      = 10 + (enforceMaxLines (pyWrap (d.take CHAR_LIMIT) CHAR_WIDTH)).length ∧
    (d = [] → enforceMaxLines (pyWrap (d.take CHAR_LIMIT) CHAR_WIDTH) = []) := by
  obtain ⟨lbl, hlbl, hr⟩ := mkReceipt_ok_fields t d p ts r hok
  subst hr
  refine ⟨rfl, ?_, ?_⟩
  · simp only [Receipt.build_lines, List.length_append, List.length_cons, List.length_nil]
    omega
  · intro hd
    subst hd
    rfl

/-- C5 witness at a concrete input, including the empty-description case. -/
theorem claim_C5_layout_order_witness :
    (∃ r, mkReceipt ("a".toList) ("hello world".toList) 2 wTs = Except.ok r ∧
      r.build_lines.length
        = 10 + (enforceMaxLines (pyWrap (("hello world".toList).take CHAR_LIMIT)
            CHAR_WIDTH)).length) ∧
    (∃ r, mkReceipt ("a".toList) [] 2 wTs = Except.ok r ∧
      enforceMaxLines (pyWrap (([] : List Char).take CHAR_LIMIT) CHAR_WIDTH) = []) := by
  constructor
  · have h := claim_C5_layout_order ("a".toList) ("hello world".toList) wTs 2
      ⟨pyUpper ("a".toList), ("hello world".toList).take CHAR_LIMIT, 2,
        "MEDIUM".toList, wTs⟩ rfl
    exact ⟨_, rfl, h.2.1⟩
  · have h := claim_C5_layout_order ("a".toList) [] wTs 2
      ⟨pyUpper ("a".toList), ([] : List Char).take CHAR_LIMIT, 2, "MEDIUM".toList, wTs⟩ rfl
    exact ⟨_, rfl, h.2.2 rfl⟩

/-! ### Wrapping a run of `a`s, symbolically

Kernel evaluation of the 960-character example would recurse too deeply, so
the wrap of `List.replicate n 'a'` is computed by lemmas instead. -/

theorem expandtabsGo_replicate_a (tabsize : Nat) :
    ∀ (n col : Nat), expandtabsGo tabsize col (List.replicate n 'a') = List.replicate n 'a' := by
  intro n
  induction n with
  | zero => intro col; rfl
  | succ m ih =>
    intro col
    rw [List.replicate_succ, expandtabsGo, if_neg (by decide), if_neg (by decide), ih (col + 1)]

theorem mungeWhitespace_replicate_a (n : Nat) :
    mungeWhitespace (List.replicate n 'a') = List.replicate n 'a' := by
  rw [mungeWhitespace, expandtabsGo_replicate_a, List.map_replicate]
  rw [show (if sepIsSpace 'a' then ' ' else 'a') = 'a' from rfl]

theorem splitChunksGo_replicate_a :
    ∀ (n : Nat) (cur : List Char), splitChunksGo false cur (List.replicate n 'a')
      = [cur.reverse ++ List.replicate n 'a'] := by
  intro n
  induction n with
  | zero => intro cur; simp [splitChunksGo]
  | succ m ih =>
    intro cur
    rw [List.replicate_succ, splitChunksGo, if_pos (by decide), ih ('a' :: cur)]
    simp [List.replicate_succ]

theorem splitChunks_replicate_a (n : Nat) :
    splitChunks (List.replicate (n + 1) 'a') = [List.replicate (n + 1) 'a'] := by
  rw [List.replicate_succ, splitChunks,
    show sepIsSpace 'a' = false from rfl, splitChunksGo_replicate_a n ['a']]
  simp [List.replicate_succ]

theorem rfindHyphenGo_replicate_a (m : Nat) :
    ∀ k, rfindHyphenGo (List.replicate m 'a') k = none := by
  intro k
  induction k with
  | zero => rfl
  | succ i ih =>
    rw [rfindHyphenGo, if_neg ?_, ih]
    rw [List.getD_eq_getElem?_getD, List.getElem?_replicate]
    split <;> decide

theorem all_pyIsSpace_replicate_a (m : Nat) :
    (List.replicate (m + 1) 'a').all pyIsSpace = false := by
  rw [List.replicate_succ, List.all_cons, show pyIsSpace 'a' = false from rfl]
  rfl

theorem handleLongWord_replicate_a (m : Nat) (h : 48 < m) :
    handleLongWord 48 0 (List.replicate m 'a')
      = (List.replicate 48 'a', List.replicate (m - 48) 'a') := by
  have hrf : rfindHyphen (List.replicate m 'a') 48 = none := by
    rw [rfindHyphen]
    exact rfindHyphenGo_replicate_a m _
  simp only [handleLongWord, if_neg (by decide : ¬ (48:Nat) < 1), Nat.sub_zero, hrf]
  rw [if_pos (by rw [List.length_replicate]; exact h)]
  rw [List.take_replicate, List.drop_replicate, Nat.min_eq_left (by omega)]

theorem fillGreedy_replicate_a_big (m : Nat) (h : 48 < m) :
    fillGreedy 48 [List.replicate m 'a'] 0 = ([], [List.replicate m 'a']) := by
  rw [fillGreedy, if_neg]
  rw [Nat.zero_add, List.length_replicate]
  omega

theorem buildLine_replicate_a (m : Nat) (h : 48 < m) :
    buildLine 48 [List.replicate m 'a']
      = ([List.replicate 48 'a'], [List.replicate (m - 48) 'a']) := by
  simp only [buildLine, fillGreedy_replicate_a_big m h]
  rw [if_pos (by rw [List.length_replicate]; omega)]
  simp only [List.map_nil, List.sum_nil, handleLongWord_replicate_a m h]
  rfl

theorem wrapStep_replicate_a (b : Bool) (m : Nat) (h : 48 < m) :
    wrapStep 48 b [List.replicate m 'a']
      = (some (List.replicate 48 'a'), [List.replicate (m - 48) 'a']) := by
  have hall : (List.replicate m 'a').all pyIsSpace = false := by
    obtain ⟨k, rfl⟩ : ∃ k, m = k + 1 := ⟨m - 1, by omega⟩
    exact all_pyIsSpace_replicate_a k
  simp only [wrapStep, hall, Bool.and_false, if_neg (Bool.false_ne_true),
    buildLine_replicate_a m h]
  rw [show dropTrailingWS [List.replicate 48 'a'] = [List.replicate 48 'a'] from by decide]
  rfl

theorem wrapLoopF_nil (width fuel : Nat) (b : Bool) : wrapLoopF width fuel b [] = [] := by
  cases fuel <;> rfl

theorem wrapStep_replicate_a_48 (b : Bool) :
    wrapStep 48 b [List.replicate 48 'a'] = (some (List.replicate 48 'a'), []) := by
  cases b <;> decide

theorem wrapLoopF_replicate_a :
    ∀ (k fuel : Nat) (b : Bool), k + 1 ≤ fuel →
      wrapLoopF 48 fuel b [List.replicate (48 * (k + 1)) 'a']
        = List.replicate (k + 1) (List.replicate 48 'a') := by
  intro k
  induction k with
  | zero =>
    intro fuel b hf
    obtain ⟨f, rfl⟩ : ∃ f, fuel = f + 1 := ⟨fuel - 1, by omega⟩
    rw [show 48 * (0 + 1) = 48 from by norm_num, wrapLoopF_cons]
    simp only [wrapStep_replicate_a_48 b, wrapLoopF_nil]
    rfl
  | succ j ih =>
    intro fuel b hf
    obtain ⟨f, rfl⟩ : ∃ f, fuel = f + 1 := ⟨fuel - 1, by omega⟩
    rw [wrapLoopF_cons, wrapStep_replicate_a b (48 * (j + 1 + 1)) (by omega)]
    simp only
    rw [show 48 * (j + 1 + 1) - 48 = 48 * (j + 1) from by ring_nf; omega]
    rw [ih f true (by omega)]
    rw [← List.replicate_succ]

theorem pyWrap_replicate_a_960 :
    pyWrap (List.replicate 960 'a') CHAR_WIDTH = List.replicate 20 (List.replicate 48 'a') := by
  simp only [pyWrap, CHAR_WIDTH]
  rw [mungeWhitespace_replicate_a, show (960 : Nat) = 959 + 1 from rfl,
    splitChunks_replicate_a 959]
  have hmeas : chunksMeasure [List.replicate (959 + 1) 'a'] = 961 := by
    simp only [chunksMeasure, List.length_cons, List.length_nil, List.map_cons,
      List.map_nil, List.sum_cons, List.sum_nil, List.length_replicate]
    norm_num
  rw [hmeas, show (959 + 1 : Nat) = 48 * (19 + 1) from by norm_num]
  exact wrapLoopF_replicate_a 19 962 false (by omega)

/-- C6 counterexample: the description `"a" * 2000` (priority 0) has length
2000, but its wrapped-and-clipped form is exactly 20 lines of 48 `a`s, and
the last description line does not end in `...` — refuting "for every
description of length 2000 ... the last description line ends in `...`". -/
theorem claim_C6_counterexample :
    ∃ r, mkReceipt ("task".toList) wDesc2000A 0 wTs = Except.ok r ∧
      wDesc2000A.length = 2000 ∧
      r.description = List.replicate 960 'a' ∧
      enforceMaxLines (pyWrap r.description CHAR_WIDTH)
        = List.replicate 20 (List.replicate 48 'a') ∧
      (enforceMaxLines (pyWrap r.description CHAR_WIDTH)).getLast?
        = some (List.replicate 48 'a') ∧
      ¬ "...".toList <:+ List.replicate 48 'a' := by
  have hdesc : wDesc2000A.take CHAR_LIMIT = List.replicate 960 'a' := by
    rw [wDesc2000A, List.take_replicate]
    norm_num [CHAR_LIMIT, CHAR_WIDTH, MAX_LINES]
  have hwrap : enforceMaxLines (pyWrap (wDesc2000A.take CHAR_LIMIT) CHAR_WIDTH)
      = List.replicate 20 (List.replicate 48 'a') := by
    rw [hdesc, pyWrap_replicate_a_960]
    simp only [enforceMaxLines]
    rw [if_neg (by simp [MAX_LINES])]
  refine ⟨_, rfl, by rw [wDesc2000A, List.length_replicate], hdesc, hwrap, ?_, by decide⟩
  rw [hwrap, show (20:Nat) = 19 + 1 from rfl, List.replicate_succ', List.getLast?_concat]

/-- C6 (amended): for every description of length 2000 with priority 0, the
description is clipped to its first 960 characters (`CHAR_LIMIT`, a hard
slice) before any wrapping, and the wrapped-and-clipped body has at most 20
lines; whenever the wrapped form of the clipped description exceeds 20
lines, the last description line ends in `...` (a 2000-character description
with no break points wraps to exactly 20 lines and receives no marker). -/
theorem claim_C6_description_clip (t d ts : List Char) (r : Receipt)
    (hlen : d.length = 2000) (hok : mkReceipt t d 0 ts = Except.ok r) :
    r.description = d.take CHAR_LIMIT ∧ r.description.length = 960 ∧
    (enforceMaxLines (pyWrap r.description CHAR_WIDTH)).length ≤ MAX_LINES ∧
    (MAX_LINES < (pyWrap r.description CHAR_WIDTH).length →
      ∀ m, (enforceMaxLines (pyWrap r.description CHAR_WIDTH)).getLast? = some m →
        "...".toList <:+ m) := by
  obtain ⟨lbl, hlbl, hr⟩ := mkReceipt_ok_fields t d 0 ts r hok
  subst hr
  refine ⟨rfl, ?_, enforceMaxLines_length_le _, ?_⟩
  · rw [List.length_take]
    simp only [CHAR_LIMIT, CHAR_WIDTH, MAX_LINES]
    omega
  · intro hgt m hm
    rw [enforceMaxLines_of_lt _ hgt, List.getLast?_concat] at hm
    simp only [Option.some.injEq] at hm
    subst hm
    exact List.suffix_append _ _

/-- C6 (amended) witness: a 2000-character description whose 960-character
clip wraps to more than 20 lines, so the marker clause fires. -/
theorem wDesc2000XY_length : wDesc2000XY.length = 2000 := by
  rw [wDesc2000XY, List.length_flatten, List.map_replicate,
    show (List.replicate 47 'x' ++ [' ', 'y', ' ']).length = 50 from by decide,
    List.sum_replicate, smul_eq_mul]

set_option maxRecDepth 8000 in
theorem claim_C6_description_clip_witness :
    wDesc2000XY.length = 2000 ∧
    mkReceipt ("t".toList) wDesc2000XY 0 wTs = Except.ok wR6 ∧
    MAX_LINES < (pyWrap wR6.description CHAR_WIDTH).length ∧
    wR6.description.length = 960 ∧
    ∀ m, (enforceMaxLines (pyWrap wR6.description CHAR_WIDTH)).getLast? = some m →
      "...".toList <:+ m := by
  have h := claim_C6_description_clip ("t".toList) wDesc2000XY wTs wR6 wDesc2000XY_length rfl
  have hgt : MAX_LINES < (pyWrap wR6.description CHAR_WIDTH).length := by decide
  exact ⟨wDesc2000XY_length, rfl, hgt, h.2.1, h.2.2.2 hgt⟩

set_option maxRecDepth 8000 in
set_option maxHeartbeats 1000000 in
/-- C7: the Buy Groceries example — title line `BUY GROCERIES` centered in
48 columns, priority line `PRIORITY: LOW` centered in 48 columns, the
description wraps to exactly 2 lines, and no `...` truncation marker appears
anywhere in the output. -/
theorem claim_C7_example :
    ∃ r, mkReceipt ("Buy Groceries".toList)
        ("Pick up milk, eggs, bread, and coffee from the store before 6pm.".toList)
        1 wTs = Except.ok r ∧
      r.build_lines[1]? = some (pyCenter CHAR_WIDTH ("BUY GROCERIES".toList)) ∧
      pyCenter CHAR_WIDTH ("BUY GROCERIES".toList)
        = "                 BUY GROCERIES                  ".toList ∧
      r.build_lines[3]? = some (pyCenter CHAR_WIDTH ("PRIORITY: LOW".toList)) ∧
      pyCenter CHAR_WIDTH ("PRIORITY: LOW".toList)
        = "                 PRIORITY: LOW                  ".toList ∧
      enforceMaxLines (pyWrap r.description CHAR_WIDTH)
        = ["Pick up milk, eggs, bread, and coffee from the".toList,
           "store before 6pm.".toList] ∧
      (enforceMaxLines (pyWrap r.description CHAR_WIDTH)).length = 2 ∧
      ∀ l ∈ r.build_lines, ¬ "...".toList <:+: l := by
  exact ⟨_, rfl, by decide, by decide, by decide, by decide, by decide, by decide, by decide⟩

theorem getElem?_append_pair_ne {α : Type} (A : List α) (x y z : α) (i : Nat)
    (h : i ≠ A.length) :
    (A ++ [x, z])[i]? = (A ++ [y, z])[i]? := by
  rcases Nat.lt_trichotomy i A.length with hlt | heq | hgt
  · rw [List.getElem?_append_left hlt, List.getElem?_append_left hlt]
  · exact absurd heq h
  · have hge : A.length ≤ i := by omega
    rw [List.getElem?_append_right hge, List.getElem?_append_right hge]
    obtain ⟨k, hk⟩ : ∃ k, i - A.length = k + 1 := ⟨i - A.length - 1, by omega⟩
    rw [hk]
    cases k with
    | zero => rfl
    | succ k2 => rfl

/-- C8: two receipts built from the same title, description and priority but
different timestamps produce line sequences of the same length that agree at
every index except the second-to-last (the timestamp line); the timestamp
influences no other line (and `_build_lines` is a pure function of the four
stored fields). -/
theorem claim_C8_timestamp_isolation (t d : List Char) (p : Int) (ts1 ts2 : List Char)
    (r1 r2 : Receipt) (h1 : mkReceipt t d p ts1 = Except.ok r1)
    (h2 : mkReceipt t d p ts2 = Except.ok r2) :
    r1.build_lines.length = r2.build_lines.length ∧
    ∀ i : Nat, i ≠ r1.build_lines.length - 2 →
      r1.build_lines[i]? = r2.build_lines[i]? := by
  obtain ⟨lbl1, hl1, hr1⟩ := mkReceipt_ok_fields t d p ts1 r1 h1
  obtain ⟨lbl2, hl2, hr2⟩ := mkReceipt_ok_fields t d p ts2 r2 h2
  rw [hl1] at hl2
  simp only [Option.some.injEq] at hl2
  subst hl2
  subst hr1
  subst hr2
  have e1 : (Receipt.mk (pyUpper t) (d.take CHAR_LIMIT) p lbl1 ts1).build_lines
      = ([BORDER, pyCenter CHAR_WIDTH (pyUpper t), THIN_BORDER,
          pyCenter CHAR_WIDTH ("PRIORITY: ".toList ++ lbl1), BORDER, []]
         ++ enforceMaxLines (pyWrap (d.take CHAR_LIMIT) CHAR_WIDTH) ++ [[], THIN_BORDER])
        ++ [pyCenter CHAR_WIDTH ts1, BORDER] := by
    simp [Receipt.build_lines, List.append_assoc]
  have e2 : (Receipt.mk (pyUpper t) (d.take CHAR_LIMIT) p lbl1 ts2).build_lines
      = ([BORDER, pyCenter CHAR_WIDTH (pyUpper t), THIN_BORDER,
          pyCenter CHAR_WIDTH ("PRIORITY: ".toList ++ lbl1), BORDER, []]
         ++ enforceMaxLines (pyWrap (d.take CHAR_LIMIT) CHAR_WIDTH) ++ [[], THIN_BORDER])
        ++ [pyCenter CHAR_WIDTH ts2, BORDER] := by
    simp [Receipt.build_lines, List.append_assoc]
  generalize hA : ([BORDER, pyCenter CHAR_WIDTH (pyUpper t), THIN_BORDER,
      pyCenter CHAR_WIDTH ("PRIORITY: ".toList ++ lbl1), BORDER, ([] : List Char)]
      ++ enforceMaxLines (pyWrap (d.take CHAR_LIMIT) CHAR_WIDTH)
      ++ [([] : List Char), THIN_BORDER]) = A at e1 e2
  have hlen : (Receipt.mk (pyUpper t) (d.take CHAR_LIMIT) p lbl1 ts1).build_lines.length
      = A.length + 2 := by
    rw [e1, List.length_append]
    rfl
  constructor
  · rw [e1, e2, List.length_append, List.length_append]
    rfl
  · intro i hi
    rw [e1, e2]
    refine getElem?_append_pair_ne A _ _ _ i (fun hcon => hi ?_)
    -- i = A.length = (A.length + 2) - 2
    rw [hlen, hcon]
    omega

/-- C8 witness: two concrete receipts differing only in timestamp. -/
theorem claim_C8_timestamp_isolation_witness :
    ∃ r1 r2, mkReceipt ("t".toList) ("d".toList) 1 wTs = Except.ok r1 ∧
      mkReceipt ("t".toList) ("d".toList) 1 wTs2 = Except.ok r2 ∧
      r1.build_lines.length = r2.build_lines.length ∧
      ∀ i : Nat, i ≠ r1.build_lines.length - 2 →
        r1.build_lines[i]? = r2.build_lines[i]? := by
  have h := claim_C8_timestamp_isolation ("t".toList) ("d".toList) 1 wTs wTs2
    ⟨pyUpper ("t".toList), ("d".toList).take CHAR_LIMIT, 1, "LOW".toList, wTs⟩
    ⟨pyUpper ("t".toList), ("d".toList).take CHAR_LIMIT, 1, "LOW".toList, wTs2⟩ rfl rfl
  exact ⟨_, _, rfl, rfl, h.1, h.2⟩

/-- C9: the styled (HTML) rendering path truncates the description to its own
hard character limit `DESCRIPTION_CHAR_LIMIT = 550` — `truncate` takes
exactly the first 550 characters, and `build_html` embeds the truncated
description — and this ceiling is distinct from and independent of the text
layout engine's `CHAR_LIMIT = 960`. -/
theorem claim_C9_styled_char_limit (t d ts s : List Char) (p : Int) :
    HtmlReceipt.truncate s HtmlReceipt.DESCRIPTION_CHAR_LIMIT = s.take 550 ∧
    HtmlReceipt.DESCRIPTION_CHAR_LIMIT = 550 ∧ CHAR_LIMIT = 960 ∧
    HtmlReceipt.DESCRIPTION_CHAR_LIMIT ≠ CHAR_LIMIT ∧
    ∃ u v, HtmlReceipt.build_html t d p ts
      = u ++ HtmlReceipt.truncate d HtmlReceipt.DESCRIPTION_CHAR_LIMIT ++ v := by
  refine ⟨rfl, rfl, rfl, by decide, ?_⟩
  refine ⟨HtmlReceipt.HTML_SEG_A.toList ++ (toString HtmlReceipt.RECEIPT_WIDTH_PX).toList
      ++ HtmlReceipt.HTML_SEG_B.toList ++ (toString HtmlReceipt.RECEIPT_HEIGHT_PX).toList
      ++ HtmlReceipt.HTML_SEG_C.toList ++ t ++ HtmlReceipt.HTML_SEG_D.toList
      ++ "PRIORITY: ".toList ++ ((HtmlReceipt.PRIORITY_LABELS p).getD ("UNKNOWN".toList))
      ++ HtmlReceipt.HTML_SEG_E.toList,
    HtmlReceipt.HTML_SEG_F.toList ++ ts ++ HtmlReceipt.HTML_SEG_G.toList, ?_⟩
  simp [HtmlReceipt.build_html, List.append_assoc]

/-- C10: unlike the text layout engine, `build_html` never fails on an
out-of-range priority — it silently substitutes the label `UNKNOWN` and the
produced HTML document contains `PRIORITY: UNKNOWN`. -/
theorem claim_C10_unknown_priority (t d ts : List Char) (p : Int)
    (hp : ¬(p = 0 ∨ p = 1 ∨ p = 2 ∨ p = 3)) :
    (HtmlReceipt.PRIORITY_LABELS p).getD ("UNKNOWN".toList) = "UNKNOWN".toList ∧
    ∃ u v, HtmlReceipt.build_html t d p ts
      = u ++ "PRIORITY: UNKNOWN".toList ++ v := by
  have hnone : HtmlReceipt.PRIORITY_LABELS p = none := by
    unfold HtmlReceipt.PRIORITY_LABELS
    split_ifs with h0 h1 h2 h3
    · exact absurd (Or.inl h0) hp
    · exact absurd (Or.inr (Or.inl h1)) hp
    · exact absurd (Or.inr (Or.inr (Or.inl h2))) hp
    · exact absurd (Or.inr (Or.inr (Or.inr h3))) hp
    · rfl
  refine ⟨by rw [hnone]; rfl, ?_⟩
  refine ⟨HtmlReceipt.HTML_SEG_A.toList ++ (toString HtmlReceipt.RECEIPT_WIDTH_PX).toList
      ++ HtmlReceipt.HTML_SEG_B.toList ++ (toString HtmlReceipt.RECEIPT_HEIGHT_PX).toList
      ++ HtmlReceipt.HTML_SEG_C.toList ++ t ++ HtmlReceipt.HTML_SEG_D.toList,
    HtmlReceipt.HTML_SEG_E.toList
      ++ HtmlReceipt.truncate d HtmlReceipt.DESCRIPTION_CHAR_LIMIT
      ++ HtmlReceipt.HTML_SEG_F.toList ++ ts ++ HtmlReceipt.HTML_SEG_G.toList, ?_⟩
  rw [show ("PRIORITY: UNKNOWN".toList : List Char)
    = "PRIORITY: ".toList ++ "UNKNOWN".toList from by decide]
  simp [HtmlReceipt.build_html, hnone, List.append_assoc]

/-- C10 witness at priority 7. -/
theorem claim_C10_unknown_priority_witness :
    (HtmlReceipt.PRIORITY_LABELS 7).getD ("UNKNOWN".toList) = "UNKNOWN".toList ∧
    ∃ u v, HtmlReceipt.build_html ("t".toList) ("d".toList) 7 wTs
      = u ++ "PRIORITY: UNKNOWN".toList ++ v :=
  claim_C10_unknown_priority ("t".toList) ("d".toList) wTs 7 (by decide)

end NetumScan
